import Mathlib

/-!
Verification development for the Rise Beat alarm/playback core
(`src/app/page.tsx`).  The definitions below are a shallow embedding of
the functions of the current (second) document in that file: wall-clock
instants are milliseconds since the epoch as naturals, media element
positions are rationals, ids are strings, and the `"HH:MM"` alarm time
is a list of characters.
-/

namespace RiseBeat

/-! ## Definitions (shallow embedding of `src/app/page.tsx`) -/

/-- Media kind, `type MediaKind = "audio" | "video"`. -/
inductive MediaKind where
  | audio : MediaKind
  | video : MediaKind
deriving DecidableEq

/-- `type MediaFile` (v2 document): `durationSec` is optional, `createdAt`
is an ISO string, `hasBlob` marks whether the binary payload is stored. -/
structure MediaFile where
  id : String
  name : String
  mimeType : String
  kind : MediaKind
  createdAt : String
  durationSec : Option Nat
  hasBlob : Bool
deriving DecidableEq

/-- `type Playlist`. -/
structure Playlist where
  id : String
  name : String
  fileIds : List String
deriving DecidableEq

/-- `type AlarmSetting` (v2 document): `nextTrigger` is an optional ISO
instant, modelled as an optional millisecond timestamp. -/
structure AlarmSetting where
  time : List Char
  playlistId : Option String
  memo : String
  isOn : Bool
  nextTrigger : Option Nat
deriving DecidableEq

/-- `DEFAULT_ALARM` constant. -/
def DEFAULT_ALARM : AlarmSetting :=
  { time := ['0', '7', ':', '0', '0'], playlistId := none, memo := "",
    isOn := false, nextTrigger := none }

def msPerMinute : Nat := 60000

def msPerHour : Nat := 3600000

def msPerDay : Nat := 86400000

/-- Midnight of the local day containing `t` (what `new Date()` with
`setHours` starts from). -/
def dayStartOf (t : Nat) : Nat := t / msPerDay * msPerDay

/-- `candidate.setHours(hour, minute, 0, 0)` applied to today's date:
the instant at `hour:minute:00.000` of the day containing `t`.  JS
`setHours` accepts out-of-range components and rolls them over, which the
plain sum reproduces. -/
def setHM (t h m : Nat) : Nat := dayStartOf t + h * msPerHour + m * msPerMinute

/-- Core of `calculateNextTrigger` after the parse: today's instant at
`h:m`, pushed one calendar day later when it is not strictly in the
future. -/
def nextTriggerAt (now h m : Nat) : Nat :=
  let candidate := setHM now h m
  if candidate ≤ now then candidate + msPerDay else candidate

/-- Hour component of an instant (`Date.getHours`). -/
def hourOf (t : Nat) : Nat := t % msPerDay / msPerHour

/-- Minute component of an instant (`Date.getMinutes`). -/
def minuteOf (t : Nat) : Nat := t % msPerDay % msPerHour / msPerMinute

/-- Numeric value of a decimal digit character. -/
def digitVal (c : Char) : Nat := c.toNat - 48

/-- The `/^\d\x7b2\x7d:\d\x7b2\x7d$/` test in `calculateNextTrigger`:
exactly two digits, a colon, two digits.  An empty string fails the
pattern, so the `!time ||` guard is subsumed. -/
def matchesHHMM : List Char → Bool
  | [a, b, c, d, e] => a.isDigit && b.isDigit && (c == ':') && d.isDigit && e.isDigit
  | _ => false

/-- `time.split(":").map(Number)` on a string that passed the pattern
test: the two two-digit numbers. -/
def parsedTime (s : List Char) : Option (Nat × Nat) :=
  if matchesHHMM s then
    match s with
    | a :: b :: _ :: d :: e :: _ =>
        some (10 * digitVal a + digitVal b, 10 * digitVal d + digitVal e)
    | _ => none
  else none

/-- `calculateNextTrigger` (lines 978-988): `null` when the pattern test
fails, otherwise the next instant at the parsed hour and minute. -/
def calculateNextTrigger (now : Nat) (s : List Char) : Option Nat :=
  (parsedTime s).map (fun p => nextTriggerAt now p.1 p.2)

/-- `handleAlarmToggle` (lines 1525-1542): arming requires a selected,
existing, non-empty playlist; it does not validate the time format.
Toggling on computes `calculateNextTrigger(alarm.time)` and stores it
(possibly `undefined`); toggling off detaches the timer and clears
`nextTrigger`.  The status-message updates are not part of the alarm
state. -/
def handleAlarmToggle (now : Nat) (ps : List Playlist) (a : AlarmSetting) : AlarmSetting :=
  match a.playlistId with
  | none => a
  | some pid =>
    match ps.find? (fun p => p.id == pid) with
    | none => a
    | some pl =>
      if pl.fileIds.length = 0 then a
      else if a.isOn then { a with isOn := false, nextTrigger := none }
      else { a with isOn := true, nextTrigger := calculateNextTrigger now a.time }

/-- `Math.max(target - Date.now(), 0)` (line 1224); natural subtraction
already truncates at zero exactly like the JS `max`. -/
def schedDelay (target now : Nat) : Nat := max (target - now) 0

/-- The v2 alarm-scheduling effect (lines 1219-1234) after
`detachAlarmTimeout()`: it schedules a single deferred callback with
delay `schedDelay` when the alarm is on and both `nextTrigger` and
`playlistId` are present, and otherwise schedules nothing.  The returned
value is the delay of the sole scheduled callback. -/
def armV2 (now : Nat) (a : AlarmSetting) : Option Nat :=
  if a.isOn then
    match a.nextTrigger with
    | none => none
    | some t =>
      match a.playlistId with
      | none => none
      | some _ => some (schedDelay t now)
  else none

/-- One run of the v2 scheduling effect: `detachAlarmTimeout()` cancels
the previously outstanding timer (the `prevTimer` argument is
discarded), and the effect itself never calls `setAlarm` — the alarm is
only read.  The result is the alarm (unchanged) and the single newly
outstanding timer, if any. -/
def armV2Effect (now : Nat) (a : AlarmSetting) (_prevTimer : Option Nat) :
    AlarmSetting × Option Nat :=
  (a, armV2 now a)

/-- One pass of the v1 scheduling effect (first document, lines
178-223), for an alarm whose time parses as `h:m`: with the alarm off,
no time or no playlist it clears `nextTrigger` and schedules nothing;
otherwise it reuses a still-future stored trigger, else computes a
fresh one; a changed trigger is persisted and the pass ends (the effect
re-runs on the updated alarm), and only an unchanged trigger proceeds
to scheduling the single timeout. -/
def armV1 (now h m : Nat) (a : AlarmSetting) : AlarmSetting × Option Nat :=
  if a.isOn = false ∨ a.time = [] ∨ a.playlistId = none then
    ({ a with nextTrigger := none }, none)
  else
    let nextTarget :=
      match a.nextTrigger with
      | some e => if e > now then e else nextTriggerAt now h m
      | none => nextTriggerAt now h m
    if some nextTarget ≠ a.nextTrigger then
      ({ a with nextTrigger := some nextTarget }, none)
    else
      (a, some (schedDelay nextTarget now))

/-- Alarm state used to refute claim C2 as stated: on, valid time,
playlist selected, but no stored `nextTrigger`. -/
def c2Alarm : AlarmSetting :=
  { time := ['0', '7', ':', '0', '0'], playlistId := some "p1", memo := "",
    isOn := true, nextTrigger := none }

/-- Alarm state with a stored future trigger, for the C2 witness. -/
def c2GoodAlarm : AlarmSetting :=
  { time := ['0', '7', ':', '0', '0'], playlistId := some "p1", memo := "",
    isOn := true, nextTrigger := some 9000 }

/-- Alarm state used against claim C4: malformed one-digit-hour time,
alarm off, non-empty playlist selected. -/
def c4Alarm : AlarmSetting :=
  { time := ['7', ':', '0', '0'], playlistId := some "p1", memo := "",
    isOn := false, nextTrigger := none }

/-- Playlists for the C4 counterexample. -/
def c4Playlists : List Playlist := [{ id := "p1", name := "pl", fileIds := ["f1"] }]

/-- The armed-alarm invariant of the spec: an alarm that is on
references an existing playlist with at least one track. -/
def AlarmInv (ps : List Playlist) (a : AlarmSetting) : Prop :=
  a.isOn = true → ∃ pid pl, a.playlistId = some pid ∧
    ps.find? (fun p => p.id == pid) = some pl ∧ pl.fileIds ≠ []

/-- The `setPlaylists` updater of `handleRemoveMedia` (lines 1407-1411):
drop the removed media id from every playlist. -/
def removeIdFromPlaylists (ps : List Playlist) (id : String) : List Playlist :=
  ps.map (fun p => { p with fileIds := p.fileIds.filter (fun fid => fid != id) })

/-- The conditional `setAlarm` inside `handleRemoveMedia` (lines
1412-1422): when an alarm playlist is selected and, after the removal,
it is missing or empty, switch the alarm off and clear `nextTrigger`
(also clearing `playlistId` when the playlist is missing). -/
def disarmOnRemove (updated : List Playlist) (a : AlarmSetting) : AlarmSetting :=
  match a.playlistId with
  | none => a
  | some pid =>
    match updated.find? (fun p => p.id == pid) with
    | none => { a with playlistId := none, isOn := false, nextTrigger := none }
    | some t =>
      if t.fileIds.length = 0 then { a with isOn := false, nextTrigger := none }
      else a

/-- `handleRemoveMedia` (lines 1402-1441) restricted to the
configuration state: updated playlists, updated media list, updated
alarm.  (The blob deletion and URL revocation are external effects.) -/
def handleRemoveMedia (ps : List Playlist) (files : List MediaFile) (a : AlarmSetting)
    (id : String) : List Playlist × List MediaFile × AlarmSetting :=
  let updated := removeIdFromPlaylists ps id
  (updated, files.filter (fun f => f.id != id), disarmOnRemove updated a)

/-- `handlePlaylistDelete` (lines 1510-1523): remove the playlist; if it
was the alarm's playlist, detach it and disarm. -/
def handlePlaylistDelete (ps : List Playlist) (a : AlarmSetting) (id : String) :
    List Playlist × AlarmSetting :=
  (ps.filter (fun p => p.id != id),
   if a.playlistId = some id then
     { a with playlistId := none, isOn := false, nextTrigger := none }
   else a)

/-- Media list for the C3 witness. -/
def c3Files : List MediaFile :=
  [{ id := "f1", name := "one", mimeType := "audio/mpeg", kind := MediaKind.audio,
     createdAt := "2024-01-01", durationSec := some 10, hasBlob := true }]

/-- Playlists for the C3 witness. -/
def c3Playlists : List Playlist := [{ id := "p1", name := "pl", fileIds := ["f1", "f2"] }]

/-- Armed alarm for the C3 witness. -/
def c3Alarm : AlarmSetting :=
  { time := ['0', '7', ':', '0', '0'], playlistId := some "p1", memo := "",
    isOn := true, nextTrigger := some 123 }

/-- The startup-load normalization of the persisted alarm (lines
1041-1048): applied to the alarm obtained by merging the stored record
over `DEFAULT_ALARM`; when a selected playlist is missing from the
stored playlists or empty, detach it and disarm. -/
def loadNormalize (storedPlaylists : List Playlist) (merged : AlarmSetting) : AlarmSetting :=
  match merged.playlistId with
  | none => merged
  | some pid =>
    match storedPlaylists.find? (fun p => p.id == pid) with
    | none => { merged with playlistId := none, isOn := false, nextTrigger := none }
    | some t =>
      if t.fileIds.length = 0 then
        { merged with playlistId := none, isOn := false, nextTrigger := none }
      else merged

/-- Persisted alarm record that is on without a playlist; the startup
load leaves it unchanged. -/
def c9Alarm : AlarmSetting :=
  { time := ['0', '7', ':', '0', '0'], playlistId := none, memo := "",
    isOn := true, nextTrigger := none }

/-- Alarm record referencing a playlist absent from the stored list, for
the C9 witness. -/
def c9DanglingAlarm : AlarmSetting :=
  { time := ['0', '7', ':', '0', '0'], playlistId := some "p9", memo := "",
    isOn := true, nextTrigger := some 777 }

/-- Playlists stored alongside `c9DanglingAlarm`. -/
def c9Playlists : List Playlist := [{ id := "p1", name := "pl", fileIds := ["f1"] }]

/-- The published progress snapshot (`progressSnapshot` state, line
1020): `remaining` carries the fractional seconds of the media element,
`percent` is the rounded integer percentage. -/
structure ProgressSnapshot where
  remaining : ℚ
  percent : ℤ
deriving DecidableEq

/-- The playback-related component state of the v2 document:
`playbackPlaylistId`, `currentTrackIndex`, `isPlaying`,
`needsManualPlay`, `missingObjectUrl`, `currentTrackUrl`,
`mediaSurface`, `playbackMessage` and the progress snapshot. -/
structure PlaybackState where
  playbackPlaylistId : Option String
  currentTrackIndex : Nat
  isPlaying : Bool
  needsManualPlay : Bool
  missingObjectUrl : Bool
  currentTrackUrl : Option String
  mediaSurface : MediaKind
  playbackMessage : String
  progress : ProgressSnapshot
deriving DecidableEq

/-- The cursor is idle: no playback playlist and not playing. -/
def IdleCursor (s : PlaybackState) : Prop :=
  s.playbackPlaylistId = none ∧ s.isPlaying = false

/-- `startPlayback` (lines 1187-1217): reject a missing or empty
playlist with a status message (resetting the playlist id and the
playing flag, which are already clear in an idle state); otherwise set
the media surface from the first track, point the cursor at index 0,
mark it playing and record whether a manual start is required
(`fromAlarm && isiOS && !userInteracted`). -/
def startPlayback (ps : List Playlist) (files : List MediaFile) (isiOS userInteracted : Bool)
    (s : PlaybackState) (pid : String) (fromAlarm : Bool) : PlaybackState :=
  match ps.find? (fun p => p.id == pid) with
  | none =>
    { s with playbackMessage := "再生できるトラックがありません",
             playbackPlaylistId := none, isPlaying := false }
  | some pl =>
    if pl.fileIds.length = 0 then
      { s with playbackMessage := "再生できるトラックがありません",
               playbackPlaylistId := none, isPlaying := false }
    else
      let requiresManualStart := fromAlarm && isiOS && !userInteracted
      let surface :=
        match pl.fileIds.head? with
        | none => s.mediaSurface
        | some fid =>
          match files.find? (fun f => f.id == fid) with
          | some f => f.kind
          | none => s.mediaSurface
      { s with mediaSurface := surface,
               playbackPlaylistId := some pid,
               currentTrackIndex := 0,
               isPlaying := true,
               needsManualPlay := requiresManualStart,
               playbackMessage :=
                 if requiresManualStart then
                   "iPhoneでは「再生を開始する」をタップして再生してください"
                 else if fromAlarm then "アラームから再生を開始しました"
                 else "再生を開始しました" }

/-- The idle playback state right after mount (message `"待機中"`,
line 1009), for the C5 witness. -/
def c5State : PlaybackState :=
  { playbackPlaylistId := none, currentTrackIndex := 0, isPlaying := false,
    needsManualPlay := false, missingObjectUrl := false, currentTrackUrl := none,
    mediaSurface := MediaKind.video, playbackMessage := "待機中",
    progress := { remaining := 0, percent := 0 } }

/-- `new Map(files.map((file) => [file.id, file]))` followed by
`lookup.get(id)`: a JS `Map` keeps the last insertion per key, so the
lookup returns the last matching entry. -/
def mapLookup (files : List MediaFile) (fid : String) : Option MediaFile :=
  files.reverse.find? (fun f => f.id == fid)

/-- `playlistDurationSec` (lines 990-996): total seconds of a playlist,
unknown durations contributing 0. -/
def playlistDurationSec (pl : Playlist) (files : List MediaFile) : Nat :=
  pl.fileIds.foldl
    (fun acc fid =>
      acc + (match mapLookup files fid with
             | some f => f.durationSec.getD 0
             | none => 0))
    0

/-- `mediaFiles.find((entry) => entry.id === id)` followed by
`file?.durationSec ?? 0`, as used by the progress interval for the
completed-track sum. -/
def fileDur (files : List MediaFile) (fid : String) : Nat :=
  match files.find? (fun f => f.id == fid) with
  | some f => f.durationSec.getD 0
  | none => 0

/-- The `completed` reduce of the progress interval (lines 1344-1349):
seconds of the tracks before the current index. -/
def completedBefore (pl : Playlist) (files : List MediaFile) (idx : Nat) : Nat :=
  (pl.fileIds.take idx).foldl (fun acc fid => acc + fileDur files fid) 0

/-- `Math.round` on a non-negative value: floor of `x + 1/2`. -/
def jsRound (q : ℚ) : ℤ := ⌊q + 1 / 2⌋

/-- One firing of the progress interval (lines 1338-1357): look the
playing playlist up (keeping the previous snapshot when it is gone),
then publish `remaining = max(total - played, 0)` and
`percent = total > 0 ? min(100, round((played / total) * 100)) : 0`,
where `played` adds the media element's `currentTime` to the completed
seconds. -/
def progressTick (ps : List Playlist) (files : List MediaFile) (pid : String) (idx : Nat)
    (t : ℚ) (prev : ProgressSnapshot) : ProgressSnapshot :=
  match ps.find? (fun p => p.id == pid) with
  | none => prev
  | some pl =>
    let total : ℚ := (playlistDurationSec pl files : ℚ)
    let played : ℚ := (completedBefore pl files idx : ℚ) + t
    { remaining := max (total - played) 0,
      percent := if 0 < total then min 100 (jsRound (played / total * 100)) else 0 }

/-- Spec-side formula (refinement target for C7): `totalDuration` is
the sum of the `durationSec` of all tracks of the playlist, unknown
durations contributing 0. -/
def specTotalDuration (pl : Playlist) (files : List MediaFile) : Nat :=
  (pl.fileIds.map (fun fid => fileDur files fid)).sum

/-- Spec-side formula (refinement target for C7): the sum of the
`durationSec` of the tracks strictly before the current index. -/
def specCompletedBefore (pl : Playlist) (files : List MediaFile) (idx : Nat) : Nat :=
  ((pl.fileIds.take idx).map (fun fid => fileDur files fid)).sum

/-- Media files for the C7 witness: one known duration, one unknown. -/
def c7Files : List MediaFile :=
  [{ id := "a", name := "a", mimeType := "audio/mpeg", kind := MediaKind.audio,
     createdAt := "2024-01-01", durationSec := some 10, hasBlob := true },
   { id := "b", name := "b", mimeType := "video/mp4", kind := MediaKind.video,
     createdAt := "2024-01-02", durationSec := none, hasBlob := true }]

/-- Playlist list for the C7 witness. -/
def c7Playlists : List Playlist := [{ id := "p1", name := "pl", fileIds := ["a", "b"] }]

/-- The playlist of `c7Playlists`. -/
def c7Playlist : Playlist := { id := "p1", name := "pl", fileIds := ["a", "b"] }

/-- `stopPlayback` (lines 1236-1248): clear all cursor state and reset
the published progress snapshot to zeros; the element pause/seek is an
external effect. -/
def stopPlayback (s : PlaybackState) : PlaybackState :=
  { s with isPlaying := false, playbackPlaylistId := none, currentTrackIndex := 0,
           currentTrackUrl := none, needsManualPlay := false, missingObjectUrl := false,
           progress := { remaining := 0, percent := 0 } }

/-- `advanceTrack` (lines 1250-1269): no-op without a playback playlist
id; stop if the playlist vanished; otherwise move to the next index when
one exists, else report completion and stop. -/
def advanceTrack (ps : List Playlist) (s : PlaybackState) (reason : Option String) :
    PlaybackState :=
  match s.playbackPlaylistId with
  | none => s
  | some pid =>
    match ps.find? (fun p => p.id == pid) with
    | none => stopPlayback s
    | some pl =>
      let s1 := match reason with
        | some r => { s with playbackMessage := r }
        | none => s
      if s.currentTrackIndex + 1 < pl.fileIds.length then
        { s1 with currentTrackIndex := s.currentTrackIndex + 1 }
      else
        stopPlayback { s1 with playbackMessage := "プレイリストを再生し終えました" }

/-- Media files for the C8 counterexample: recorded durations 10 and 20
seconds.  A recorded `durationSec` of 10 is what `readMediaDuration`
stores for a track whose true length is 10.4 seconds
(`Math.round(10.4) = 10`). -/
def c8Files : List MediaFile :=
  [{ id := "a", name := "a", mimeType := "audio/mpeg", kind := MediaKind.audio,
     createdAt := "2024-01-01", durationSec := some 10, hasBlob := true },
   { id := "b", name := "b", mimeType := "audio/mpeg", kind := MediaKind.audio,
     createdAt := "2024-01-02", durationSec := some 20, hasBlob := true }]

/-- Playlists for the C8 counterexample. -/
def c8Playlists : List Playlist := [{ id := "p1", name := "pl", fileIds := ["a", "b"] }]

/-- The playlist of `c8Playlists`. -/
def c8Playlist : Playlist := { id := "p1", name := "pl", fileIds := ["a", "b"] }

/-- The snapshot states the published progress can reach: the initial
zero snapshot (line 1020), the value written by a progress-interval
firing with a non-negative element position, and the zero snapshot
written by `stopPlayback`. -/
inductive SnapshotReachable : ProgressSnapshot → Prop where
  | init : SnapshotReachable { remaining := 0, percent := 0 }
  | tick (ps : List Playlist) (files : List MediaFile) (pid : String) (idx : Nat)
      (t : ℚ) (prev : ProgressSnapshot) (ht : 0 ≤ t)
      (hprev : SnapshotReachable prev) :
      SnapshotReachable (progressTick ps files pid idx t prev)
  | stop (s : PlaybackState) (hprev : SnapshotReachable s.progress) :
      SnapshotReachable (stopPlayback s).progress

/-- `mediaFiles.find((file) => file.id === mediaId)` — the media entry
lookup of the `currentTrack` memo (lines 1143-1150). -/
def lookupTrack (files : List MediaFile) (fid : String) : Option MediaFile :=
  files.find? (fun f => f.id == fid)

/-- Outcome of the track-setup walk: a resolved track whose URL is set
(the cursor plays at that index, possibly behind the manual-start
affordance), a finished playlist (`advanceTrack` past the end), or a
stall (the setup effect returns with a null `currentTrack` and nothing
ever advances). -/
inductive WalkResult where
  | playing : Nat → WalkResult
  | finished : WalkResult
  | stalled : Nat → WalkResult
deriving DecidableEq

/-- The loop formed by the track-setup effect (lines 1290-1312) and
`advanceTrack` (lines 1250-1269), walking a fixed playlist: at index
`i`, resolve `currentTrack` (`fileIds[i]` then the media-entry lookup;
a missing entry leaves `currentTrack` null and the effect returns
without advancing — a stall); with an entry, `store` says whether
`loadTrackUrl` finds the blob: if so the URL is set and the cursor plays
at `i`; otherwise `advanceTrack` moves to `i+1` when it exists and
otherwise finishes.  `fuel` bounds the recursion; `ids.length` steps
always suffice. -/
def skipWalk (files : List MediaFile) (store : String → Bool) (ids : List String) :
    Nat → Nat → WalkResult
  | i, 0 => WalkResult.stalled i
  | i, fuel + 1 =>
    match ids.get? i with
    | none => WalkResult.stalled i
    | some fid =>
      match lookupTrack files fid with
      | none => WalkResult.stalled i
      | some track =>
        if store track.id then WalkResult.playing i
        else if i + 1 < ids.length then skipWalk files store ids (i + 1) fuel
        else WalkResult.finished

/-- Media files for the C6 witness. -/
def c6Files : List MediaFile :=
  [{ id := "a", name := "a", mimeType := "audio/mpeg", kind := MediaKind.audio,
     createdAt := "2024-01-01", durationSec := some 10, hasBlob := false },
   { id := "b", name := "b", mimeType := "audio/mpeg", kind := MediaKind.audio,
     createdAt := "2024-01-02", durationSec := some 20, hasBlob := true }]

/-- Blob availability for the C6 witness: only `"b"` resolves. -/
def c6Store : String → Bool := fun fid => fid == "b"

/-! ## Theorems -/

/-- Claim C1: for every `"HH:MM"` string naming a valid hour and minute,
`calculateNextTrigger` returns the next instant with that hour and
minute and zero seconds/milliseconds: today's instant when it is still
strictly after `now`, otherwise exactly one day later; the result is
strictly after `now` and at most 24 hours + 1 minute ahead. -/
theorem c1_calculateNextTrigger_correct (now : Nat) (s : List Char) (h m : Nat)
    (hp : parsedTime s = some (h, m)) (hh : h < 24) (hm : m < 60) :
    ∃ r, calculateNextTrigger now s = some r ∧
      now < r ∧
      r ≤ now + msPerDay + msPerMinute ∧
      r % msPerMinute = 0 ∧
      hourOf r = h ∧
      minuteOf r = m ∧
      (∀ t, now < t → t < r →
        ¬(t % msPerMinute = 0 ∧ hourOf t = h ∧ minuteOf t = m)) ∧
      r = (if now < setHM now h m then setHM now h m else setHM now h m + msPerDay) := by
  refine ⟨nextTriggerAt now h m, ?_, ?_, ?_, ?_, ?_, ?_, ?_, ?_⟩
  · simp [calculateNextTrigger, hp]
  · simp only [nextTriggerAt, setHM, dayStartOf, msPerDay, msPerHour, msPerMinute]
    split <;> omega
  · simp only [nextTriggerAt, setHM, dayStartOf, msPerDay, msPerHour, msPerMinute]
    split <;> omega
  · simp only [nextTriggerAt, setHM, dayStartOf, msPerDay, msPerHour, msPerMinute]
    split <;> omega
  · simp only [nextTriggerAt, setHM, dayStartOf, hourOf, msPerDay, msPerHour, msPerMinute]
    split <;> omega
  · simp only [nextTriggerAt, setHM, dayStartOf, minuteOf, msPerDay, msPerHour, msPerMinute]
    split <;> omega
  · intro t hnt htr ⟨h1, h2, h3⟩
    simp only [nextTriggerAt, setHM, dayStartOf, msPerDay, msPerHour, msPerMinute] at htr
    simp only [hourOf, minuteOf, msPerDay, msPerHour, msPerMinute] at h2 h3
    simp only [msPerMinute] at h1
    split at htr <;> omega
  · simp only [nextTriggerAt, setHM, dayStartOf, msPerDay, msPerHour, msPerMinute]
    split <;> split <;> omega

/-- Witness for C1 at `now = 1000`, `s = "07:00"`. -/
theorem c1_witness :
    (parsedTime ['0', '7', ':', '0', '0'] = some (7, 0) ∧ 7 < 24 ∧ 0 < 60) ∧
    (∃ r, calculateNextTrigger 1000 ['0', '7', ':', '0', '0'] = some r ∧
      1000 < r ∧
      r ≤ 1000 + msPerDay + msPerMinute ∧
      r % msPerMinute = 0 ∧
      hourOf r = 7 ∧
      minuteOf r = 0 ∧
      (∀ t, 1000 < t → t < r →
        ¬(t % msPerMinute = 0 ∧ hourOf t = 7 ∧ minuteOf t = 0)) ∧
      r = (if 1000 < setHM 1000 7 0 then setHM 1000 7 0 else setHM 1000 7 0 + msPerDay)) :=
  ⟨⟨by decide, by decide, by decide⟩,
    c1_calculateNextTrigger_correct 1000 ['0', '7', ':', '0', '0'] 7 0 (by decide)
      (by decide) (by decide)⟩

/-- The computed trigger instant is always strictly in the future. -/
theorem nextTriggerAt_future (now h m : Nat) : now < nextTriggerAt now h m := by
  simp only [nextTriggerAt, setHM, dayStartOf, msPerDay, msPerHour, msPerMinute]
  split <;> omega

/-- Claim C2 (amended): with the alarm on and a playlist set, a stored
`nextTrigger` is reused unchanged by the v2 scheduler and exactly one
callback is scheduled with delay `max(nextTrigger - now, 0)` —
re-running the effect cancels the previous timer first, so arming twice
changes neither the alarm nor the number of outstanding timers.  When
`nextTrigger` is absent the v2 effect computes nothing and schedules
nothing (the fresh trigger is produced by the arm toggle instead); only
the v1 scheduler computes a fresh trigger when the stored one is absent
or stale, persists it in a first pass, and schedules the single
callback on the re-run. -/
theorem c2_armV2_behavior (now : Nat) (a : AlarmSetting) (pid : String)
    (hOn : a.isOn = true) (hpid : a.playlistId = some pid) :
    (∀ t prev, a.nextTrigger = some t →
      armV2Effect now a prev = (a, some (schedDelay t now)) ∧
      schedDelay t now = max (t - now) 0 ∧
      armV2Effect now (armV2Effect now a prev).1 (armV2Effect now a prev).2 =
        armV2Effect now a prev) ∧
    (a.nextTrigger = none → ∀ prev, armV2Effect now a prev = (a, none)) ∧
    (a.time ≠ [] → ∀ h m,
      (a.nextTrigger = none ∨ ∃ e, a.nextTrigger = some e ∧ ¬ now < e) →
      armV1 now h m a = ({ a with nextTrigger := some (nextTriggerAt now h m) }, none) ∧
      armV1 now h m { a with nextTrigger := some (nextTriggerAt now h m) } =
        ({ a with nextTrigger := some (nextTriggerAt now h m) },
         some (schedDelay (nextTriggerAt now h m) now))) := by
  refine ⟨?_, ?_, ?_⟩
  · intro t prev ht
    simp [armV2Effect, armV2, hOn, hpid, ht, schedDelay]
  · intro ht prev
    simp [armV2Effect, armV2, hOn, hpid, ht]
  · intro htime h m hstale
    have hguard : ¬ (a.isOn = false ∨ a.time = [] ∨ a.playlistId = none) := by
      simp [hOn, htime, hpid]
    have hfut := nextTriggerAt_future now h m
    constructor
    · rcases hstale with hnone | ⟨e, he, hle⟩
      · simp [armV1, hguard, hnone]
      · have h1 : ¬ e > now := by omega
        have h2 : ¬ nextTriggerAt now h m = e := by omega
        simp [armV1, hguard, he, h1, h2]
    · have h3 : nextTriggerAt now h m > now := hfut
      simp [armV1, hOn, htime, hpid, h3]

/-- Counterexample to claim C2 as stated: with the alarm on, a valid
time and a playlist set but the stored `nextTrigger` absent, the v2
scheduling effect neither computes a fresh trigger (the alarm is
returned unchanged) nor schedules any callback, whereas the claim
requires a fresh trigger to be computed via `computeNextTrigger`,
persisted, and exactly one callback scheduled. -/
theorem c2_counterexample :
    c2Alarm.isOn = true ∧ matchesHHMM c2Alarm.time = true ∧
    c2Alarm.playlistId = some "p1" ∧ c2Alarm.nextTrigger = none ∧
    armV2Effect 5000 c2Alarm none = (c2Alarm, none) := by decide

/-- Witness for the amended C2 at a concrete armed alarm. -/
theorem c2_witness :
    (c2GoodAlarm.isOn = true ∧ c2GoodAlarm.playlistId = some "p1") ∧
    ((∀ t prev, c2GoodAlarm.nextTrigger = some t →
      armV2Effect 5000 c2GoodAlarm prev = (c2GoodAlarm, some (schedDelay t 5000)) ∧
      schedDelay t 5000 = max (t - 5000) 0 ∧
      armV2Effect 5000 (armV2Effect 5000 c2GoodAlarm prev).1 (armV2Effect 5000 c2GoodAlarm prev).2 =
        armV2Effect 5000 c2GoodAlarm prev) ∧
    (c2GoodAlarm.nextTrigger = none →
      ∀ prev, armV2Effect 5000 c2GoodAlarm prev = (c2GoodAlarm, none)) ∧
    (c2GoodAlarm.time ≠ [] → ∀ h m,
      (c2GoodAlarm.nextTrigger = none ∨
        ∃ e, c2GoodAlarm.nextTrigger = some e ∧ ¬ 5000 < e) →
      armV1 5000 h m c2GoodAlarm =
        ({ c2GoodAlarm with nextTrigger := some (nextTriggerAt 5000 h m) }, none) ∧
      armV1 5000 h m { c2GoodAlarm with nextTrigger := some (nextTriggerAt 5000 h m) } =
        ({ c2GoodAlarm with nextTrigger := some (nextTriggerAt 5000 h m) },
         some (schedDelay (nextTriggerAt 5000 h m) 5000)))) :=
  ⟨⟨rfl, rfl⟩, c2_armV2_behavior 5000 c2GoodAlarm "p1" rfl rfl⟩

/-- Claim C4 (amended): for every time string that fails the
two-digit-colon-two-digit pattern, `calculateNextTrigger` returns
`null`; but `handleAlarmToggle` does not validate the time, so arming
with a non-empty playlist selected and such a time still flips `isOn` to
`true`, leaves `nextTrigger` unset (the other alarm fields unchanged),
and consequently the scheduler never schedules a callback. -/
theorem c4_invalid_time (now nowS : Nat) (ps : List Playlist) (a : AlarmSetting)
    (pid : String) (pl : Playlist)
    (hpid : a.playlistId = some pid)
    (hfind : ps.find? (fun p => p.id == pid) = some pl)
    (hne : pl.fileIds.length ≠ 0)
    (hoff : a.isOn = false)
    (hbad : matchesHHMM a.time = false) :
    (∀ n s, matchesHHMM s = false → calculateNextTrigger n s = none) ∧
    (handleAlarmToggle now ps a).isOn = true ∧
    (handleAlarmToggle now ps a).nextTrigger = none ∧
    (handleAlarmToggle now ps a).time = a.time ∧
    (handleAlarmToggle now ps a).playlistId = a.playlistId ∧
    (handleAlarmToggle now ps a).memo = a.memo ∧
    (∀ prev, armV2Effect nowS (handleAlarmToggle now ps a) prev =
      (handleAlarmToggle now ps a, none)) := by
  have hnone : ∀ n s, matchesHHMM s = false → calculateNextTrigger n s = none := by
    intro n s hs
    simp [calculateNextTrigger, parsedTime, hs]
  have htog : handleAlarmToggle now ps a =
      { a with isOn := true, nextTrigger := none } := by
    simp [handleAlarmToggle, hpid, hfind, hne, hoff, hnone now a.time hbad]
  refine ⟨hnone, ?_, ?_, ?_, ?_, ?_, ?_⟩ <;>
    simp [htog, armV2Effect, armV2]

/-- Counterexample to claim C4 as stated: arming with the malformed time
`"7:00"` is not rejected — the toggle changes the alarm state, flipping
`isOn` to `true`. -/
theorem c4_counterexample :
    matchesHHMM c4Alarm.time = false ∧
    c4Alarm.isOn = false ∧
    (handleAlarmToggle 0 c4Playlists c4Alarm).isOn = true ∧
    handleAlarmToggle 0 c4Playlists c4Alarm ≠ c4Alarm := by decide

/-- Witness for the amended C4 at the concrete malformed-time alarm. -/
theorem c4_witness :
    (c4Alarm.playlistId = some "p1" ∧
     c4Playlists.find? (fun p => p.id == "p1") =
       some { id := "p1", name := "pl", fileIds := ["f1"] } ∧
     ({ id := "p1", name := "pl", fileIds := ["f1"] } : Playlist).fileIds.length ≠ 0 ∧
     c4Alarm.isOn = false ∧ matchesHHMM c4Alarm.time = false) ∧
    ((∀ n s, matchesHHMM s = false → calculateNextTrigger n s = none) ∧
     (handleAlarmToggle 0 c4Playlists c4Alarm).isOn = true ∧
     (handleAlarmToggle 0 c4Playlists c4Alarm).nextTrigger = none ∧
     (handleAlarmToggle 0 c4Playlists c4Alarm).time = c4Alarm.time ∧
     (handleAlarmToggle 0 c4Playlists c4Alarm).playlistId = c4Alarm.playlistId ∧
     (handleAlarmToggle 0 c4Playlists c4Alarm).memo = c4Alarm.memo ∧
     (∀ prev, armV2Effect 77 (handleAlarmToggle 0 c4Playlists c4Alarm) prev =
       (handleAlarmToggle 0 c4Playlists c4Alarm, none))) :=
  ⟨⟨by decide, by decide, by decide, by decide, by decide⟩,
    c4_invalid_time 0 77 c4Playlists c4Alarm "p1" { id := "p1", name := "pl", fileIds := ["f1"] }
      (by decide) (by decide) (by decide) (by decide) (by decide)⟩

/-- Deleting a playlist with a different id does not change the result
of looking a playlist up by id. -/
theorem find?_filter_ne (ps : List Playlist) (id pid : String) (hne : pid ≠ id) :
    (ps.filter (fun p => p.id != id)).find? (fun p => p.id == pid) =
      ps.find? (fun p => p.id == pid) := by
  induction ps with
  | nil => simp
  | cons p ps ih =>
    by_cases h : (p.id == pid) = true
    · have hpid : p.id = pid := by simpa using h
      have hkeep : (p.id != id) = true := by simp [hpid, hne]
      simp [List.filter_cons, List.find?_cons, hkeep, h]
    · have h1 : (p.id == pid) = false := by simpa using h
      by_cases hk : (p.id != id) = true
      · simp [List.filter_cons, List.find?_cons, hk, h1, ih]
      · have hk1 : (p.id != id) = false := by simpa using hk
        simp [List.filter_cons, List.find?_cons, hk1, h1, ih]

/-- Claim C3: both mutations that can empty or delete a playlist
(`handleRemoveMedia`, `handlePlaylistDelete`) preserve the armed-alarm
invariant, and when the mutated playlist is the alarm's and it becomes
empty or is deleted, the very same mutation switches the alarm off and
clears `nextTrigger`. -/
theorem c3_mutations_preserve_alarm_invariant (ps : List Playlist) (files : List MediaFile)
    (a : AlarmSetting) (id : String) (hinv : AlarmInv ps a) :
    AlarmInv (handleRemoveMedia ps files a id).1 (handleRemoveMedia ps files a id).2.2 ∧
    (∀ pid pl, a.playlistId = some pid →
       (removeIdFromPlaylists ps id).find? (fun p => p.id == pid) = some pl →
       pl.fileIds = [] →
       (handleRemoveMedia ps files a id).2.2.isOn = false ∧
       (handleRemoveMedia ps files a id).2.2.nextTrigger = none) ∧
    AlarmInv (handlePlaylistDelete ps a id).1 (handlePlaylistDelete ps a id).2 ∧
    (a.playlistId = some id →
       (handlePlaylistDelete ps a id).2.isOn = false ∧
       (handlePlaylistDelete ps a id).2.nextTrigger = none ∧
       (handlePlaylistDelete ps a id).2.playlistId = none) := by
  refine ⟨?_, ?_, ?_, ?_⟩
  · -- the removal preserves the invariant
    show AlarmInv (removeIdFromPlaylists ps id) (disarmOnRemove (removeIdFromPlaylists ps id) a)
    rcases hpid : a.playlistId with _ | pid
    · have hda : disarmOnRemove (removeIdFromPlaylists ps id) a = a := by
        simp [disarmOnRemove, hpid]
      rw [hda]
      intro hOn
      obtain ⟨pid2, pl2, hpid2, _, _⟩ := hinv hOn
      rw [hpid] at hpid2
      simp at hpid2
    · rcases hf : (removeIdFromPlaylists ps id).find? (fun p => p.id == pid) with _ | t
      · intro hOn
        simp [disarmOnRemove, hpid, hf] at hOn
      · by_cases hlen : t.fileIds.length = 0
        · intro hOn
          simp [disarmOnRemove, hpid, hf, hlen] at hOn
        · have hda : disarmOnRemove (removeIdFromPlaylists ps id) a = a := by
            simp [disarmOnRemove, hpid, hf, hlen]
          rw [hda]
          intro _
          exact ⟨pid, t, hpid, hf, fun hcontra => hlen (by simp [hcontra])⟩
  · -- the removal that empties the alarm playlist disarms the alarm
    intro pid pl hpid hf hempty
    have hlen : pl.fileIds.length = 0 := by simp [hempty]
    constructor
    · show (disarmOnRemove (removeIdFromPlaylists ps id) a).isOn = false
      simp [disarmOnRemove, hpid, hf, hlen]
    · show (disarmOnRemove (removeIdFromPlaylists ps id) a).nextTrigger = none
      simp [disarmOnRemove, hpid, hf, hlen]
  · -- the deletion preserves the invariant
    show AlarmInv (ps.filter (fun p => p.id != id))
      (if a.playlistId = some id then
        { a with playlistId := none, isOn := false, nextTrigger := none }
      else a)
    by_cases hdel : a.playlistId = some id
    · rw [if_pos hdel]
      intro hOn
      simp at hOn
    · rw [if_neg hdel]
      intro hOn
      obtain ⟨pid, pl, hpid, hfind, hne⟩ := hinv hOn
      have hpidne : pid ≠ id := fun hcontra => hdel (by rw [hpid, hcontra])
      exact ⟨pid, pl, hpid,
        by rw [find?_filter_ne ps id pid hpidne]; exact hfind, hne⟩
  · -- deleting the alarm playlist disarms the alarm
    intro hdel
    refine ⟨?_, ?_, ?_⟩ <;>
      · show _ = _
        simp [handlePlaylistDelete, hdel]

/-- Witness for C3 at a concrete armed state with a two-track playlist. -/
theorem c3_witness :
    AlarmInv c3Playlists c3Alarm ∧
    (AlarmInv (handleRemoveMedia c3Playlists c3Files c3Alarm "f1").1
        (handleRemoveMedia c3Playlists c3Files c3Alarm "f1").2.2 ∧
     (∀ pid pl, c3Alarm.playlistId = some pid →
        (removeIdFromPlaylists c3Playlists "f1").find? (fun p => p.id == pid) = some pl →
        pl.fileIds = [] →
        (handleRemoveMedia c3Playlists c3Files c3Alarm "f1").2.2.isOn = false ∧
        (handleRemoveMedia c3Playlists c3Files c3Alarm "f1").2.2.nextTrigger = none) ∧
     AlarmInv (handlePlaylistDelete c3Playlists c3Alarm "f1").1
        (handlePlaylistDelete c3Playlists c3Alarm "f1").2 ∧
     (c3Alarm.playlistId = some "f1" →
        (handlePlaylistDelete c3Playlists c3Alarm "f1").2.isOn = false ∧
        (handlePlaylistDelete c3Playlists c3Alarm "f1").2.nextTrigger = none ∧
        (handlePlaylistDelete c3Playlists c3Alarm "f1").2.playlistId = none)) :=
  ⟨fun _ => ⟨"p1", { id := "p1", name := "pl", fileIds := ["f1", "f2"] },
     rfl, by decide, by decide⟩,
   c3_mutations_preserve_alarm_invariant c3Playlists c3Files c3Alarm "f1"
     (fun _ => ⟨"p1", { id := "p1", name := "pl", fileIds := ["f1", "f2"] },
       rfl, by decide, by decide⟩)⟩

/-- Claim C9 (amended): at startup, a persisted alarm whose non-null
`playlistId` is missing from the persisted playlists or references an
empty playlist is normalized before any scheduling (`playlistId := null`,
`isOn := false`, `nextTrigger` cleared), and for every record with a
non-null `playlistId` the armed-alarm invariant holds after loading.  (A
record with `isOn = true` and `playlistId = null` is loaded unchanged,
so the invariant can fail for it; see the counterexample.) -/
theorem c9_load_normalization (ps : List Playlist) (merged : AlarmSetting) (pid : String)
    (hpid : merged.playlistId = some pid) :
    ((ps.find? (fun p => p.id == pid) = none ∨
      ∃ pl, ps.find? (fun p => p.id == pid) = some pl ∧ pl.fileIds.length = 0) →
      loadNormalize ps merged =
        { merged with playlistId := none, isOn := false, nextTrigger := none }) ∧
    AlarmInv ps (loadNormalize ps merged) := by
  constructor
  · rintro (hf | ⟨pl, hf, hlen⟩)
    · simp [loadNormalize, hpid, hf]
    · simp [loadNormalize, hpid, hf, hlen]
  · rcases hf : ps.find? (fun p => p.id == pid) with _ | t
    · intro hOn
      simp [loadNormalize, hpid, hf] at hOn
    · by_cases hlen : t.fileIds.length = 0
      · intro hOn
        simp [loadNormalize, hpid, hf, hlen] at hOn
      · have : loadNormalize ps merged = merged := by
          simp [loadNormalize, hpid, hf, hlen]
        rw [this]
        intro _
        exact ⟨pid, t, hpid, hf, by
          intro hcontra
          exact hlen (by simp [hcontra])⟩

/-- Counterexample to claim C9 as stated: the inconsistent persisted
record with `isOn = true` and `playlistId = null` is loaded unchanged,
so the armed-alarm invariant does not hold in the initial state. -/
theorem c9_counterexample :
    loadNormalize [] c9Alarm = c9Alarm ∧ c9Alarm.isOn = true ∧
    ¬ AlarmInv [] (loadNormalize [] c9Alarm) := by
  refine ⟨rfl, rfl, fun h => ?_⟩
  obtain ⟨pid, pl, hpid, _, _⟩ := h (by rfl)
  simp [loadNormalize, c9Alarm] at hpid

/-- Witness for the amended C9: an armed alarm referencing an absent
playlist is normalized at load. -/
theorem c9_witness :
    c9DanglingAlarm.playlistId = some "p9" ∧
    (((c9Playlists.find? (fun p => p.id == "p9") = none ∨
      ∃ pl, c9Playlists.find? (fun p => p.id == "p9") = some pl ∧ pl.fileIds.length = 0) →
      loadNormalize c9Playlists c9DanglingAlarm =
        { c9DanglingAlarm with playlistId := none, isOn := false, nextTrigger := none }) ∧
    AlarmInv c9Playlists (loadNormalize c9Playlists c9DanglingAlarm)) :=
  ⟨rfl, c9_load_normalization c9Playlists c9DanglingAlarm "p9" rfl⟩

/-- Claim C5: `startPlayback` on a missing or empty playlist, called
from an idle cursor, starts nothing: the entire state is unchanged apart
from the error status message, so the cursor stays idle and never
enters a loading state. -/
theorem c5_startPlayback_error (ps : List Playlist) (files : List MediaFile)
    (ios ui : Bool) (s : PlaybackState) (pid : String) (fromAlarm : Bool)
    (hbad : ps.find? (fun p => p.id == pid) = none ∨
      ∃ pl, ps.find? (fun p => p.id == pid) = some pl ∧ pl.fileIds.length = 0)
    (hidle : IdleCursor s) :
    startPlayback ps files ios ui s pid fromAlarm =
      { s with playbackMessage := "再生できるトラックがありません" } ∧
    IdleCursor (startPlayback ps files ios ui s pid fromAlarm) ∧
    (startPlayback ps files ios ui s pid fromAlarm).playbackMessage =
      "再生できるトラックがありません" := by
  obtain ⟨h1, h2⟩ := hidle
  rcases s with ⟨spid, sidx, splay, sneed, smiss, surl, ssurf, smsg, sprog⟩
  simp only [PlaybackState.playbackPlaylistId] at h1
  simp only [PlaybackState.isPlaying] at h2
  subst h1
  subst h2
  rcases hbad with hf | ⟨pl, hf, hlen⟩
  · refine ⟨?_, ⟨?_, ?_⟩, ?_⟩ <;> simp [startPlayback, hf, IdleCursor]
  · refine ⟨?_, ⟨?_, ?_⟩, ?_⟩ <;> simp [startPlayback, hf, hlen, IdleCursor]

/-- Witness for C5: starting a playlist id that exists nowhere, from the
initial idle state. -/
theorem c5_witness :
    (([] : List Playlist).find? (fun p => p.id == "p1") = none ∨
      ∃ pl, ([] : List Playlist).find? (fun p => p.id == "p1") = some pl ∧
        pl.fileIds.length = 0) ∧ IdleCursor c5State ∧
    (startPlayback [] [] false false c5State "p1" false =
      { c5State with playbackMessage := "再生できるトラックがありません" } ∧
    IdleCursor (startPlayback [] [] false false c5State "p1" false) ∧
    (startPlayback [] [] false false c5State "p1" false).playbackMessage =
      "再生できるトラックがありません") :=
  ⟨Or.inl rfl, ⟨rfl, rfl⟩,
    c5_startPlayback_error [] [] false false c5State "p1" false (Or.inl rfl) ⟨rfl, rfl⟩⟩

/-- When the media-file ids are distinct, the JS-`Map` lookup (last
match) agrees with `find?` (first match). -/
theorem mapLookup_eq_find? (files : List MediaFile) (fid : String)
    (hnd : (files.map (fun f => f.id)).Nodup) :
    mapLookup files fid = files.find? (fun f => f.id == fid) := by
  induction files with
  | nil => rfl
  | cons f fs ih =>
    have hpair : (∀ x ∈ fs, ¬ x.id = f.id) ∧ (fs.map (fun g => g.id)).Nodup := by
      simpa using hnd
    show ((f :: fs).reverse).find? (fun g => g.id == fid) = _
    rw [List.reverse_cons, List.find?_append]
    have ih2 : List.find? (fun g => g.id == fid) fs.reverse =
        List.find? (fun g => g.id == fid) fs := ih hpair.2
    by_cases h : (f.id == fid) = true
    · have hfid : f.id = fid := by simpa using h
      have hnone : List.find? (fun g => g.id == fid) fs = none := by
        rw [List.find?_eq_none]
        intro x hx hpx
        have hxid : x.id = fid := by simpa using hpx
        exact hpair.1 x hx (by rw [hxid, hfid])
      rw [ih2, hnone]
      simp [List.find?_cons, h]
    · have h1 : (f.id == fid) = false := by simpa using h
      rw [ih2]
      simp only [List.find?_cons, h1]
      simp

/-- Folding `+` over a list starting from `acc` is `acc` plus the sum
of the mapped list. -/
theorem foldl_add_eq_sum (f : String → Nat) (l : List String) (acc : Nat) :
    l.foldl (fun a fid => a + f fid) acc = acc + (l.map f).sum := by
  induction l generalizing acc with
  | nil => simp
  | cons x xs ih => simp [List.foldl_cons, ih, Nat.add_assoc]

/-- With distinct media ids, the code's `playlistDurationSec` computes
the spec-side total. -/
theorem playlistDurationSec_eq_spec (pl : Playlist) (files : List MediaFile)
    (hnd : (files.map (fun f => f.id)).Nodup) :
    playlistDurationSec pl files = specTotalDuration pl files := by
  have hfun : (fun fid => match mapLookup files fid with
      | some f => f.durationSec.getD 0
      | none => 0) = fun fid : String => fileDur files fid := by
    funext fid
    unfold fileDur
    rw [mapLookup_eq_find? files fid hnd]
  have h1 : playlistDurationSec pl files =
      0 + (pl.fileIds.map (fun fid => match mapLookup files fid with
        | some f => f.durationSec.getD 0
        | none => 0)).sum :=
    foldl_add_eq_sum _ pl.fileIds 0
  rw [h1, hfun]
  unfold specTotalDuration
  exact Nat.zero_add _

/-- The code's `completedBefore` computes the spec-side sum of the
tracks before the index. -/
theorem completedBefore_eq_spec (pl : Playlist) (files : List MediaFile) (idx : Nat) :
    completedBefore pl files idx = specCompletedBefore pl files idx := by
  have h1 : completedBefore pl files idx =
      0 + ((pl.fileIds.take idx).map (fun fid => fileDur files fid)).sum :=
    foldl_add_eq_sum _ _ 0
  rw [h1]
  unfold specCompletedBefore
  exact Nat.zero_add _

/-- `Math.round` of a non-negative rational is a non-negative integer. -/
theorem jsRound_nonneg (q : ℚ) (h : 0 ≤ q) : 0 ≤ jsRound q := by
  unfold jsRound
  rw [Int.le_floor]
  push_cast
  linarith

/-- Claim C7: each progress tick publishes exactly the spec formulas —
`remaining = max(total - played, 0)` and
`percent = round(100 · played / total)` clamped to `[0, 100]` (0 when the
total is 0) — where `total` sums all track durations with unknown
durations as 0 and `played` adds the element position to the durations
before the current index; the published values always satisfy the
bounds, for every input including absent duration data. -/
theorem c7_progress_tick (ps : List Playlist) (files : List MediaFile) (pid : String)
    (idx : Nat) (t : ℚ) (prev : ProgressSnapshot) (pl : Playlist)
    (hfind : ps.find? (fun p => p.id == pid) = some pl)
    (ht : 0 ≤ t)
    (hnd : (files.map (fun f => f.id)).Nodup) :
    (progressTick ps files pid idx t prev).remaining =
      max ((specTotalDuration pl files : ℚ) -
        ((specCompletedBefore pl files idx : ℚ) + t)) 0 ∧
    (progressTick ps files pid idx t prev).percent =
      (if (0 : ℚ) < (specTotalDuration pl files : ℚ) then
        min 100 (jsRound (((specCompletedBefore pl files idx : ℚ) + t) /
          (specTotalDuration pl files : ℚ) * 100))
      else 0) ∧
    0 ≤ (progressTick ps files pid idx t prev).remaining ∧
    0 ≤ (progressTick ps files pid idx t prev).percent ∧
    (progressTick ps files pid idx t prev).percent ≤ 100 ∧
    ((specTotalDuration pl files : ℚ) = 0 →
      (progressTick ps files pid idx t prev).percent = 0) ∧
    (progressTick ps files pid idx t prev).percent =
      max 0 (min 100 (jsRound (100 * ((specCompletedBefore pl files idx : ℚ) + t) /
        (specTotalDuration pl files : ℚ)))) := by
  have hpt : progressTick ps files pid idx t prev =
      { remaining := max ((specTotalDuration pl files : ℚ) -
          ((specCompletedBefore pl files idx : ℚ) + t)) 0,
        percent := if (0 : ℚ) < (specTotalDuration pl files : ℚ) then
          min 100 (jsRound (((specCompletedBefore pl files idx : ℚ) + t) /
            (specTotalDuration pl files : ℚ) * 100))
        else 0 } := by
    unfold progressTick
    rw [hfind]
    simp only [playlistDurationSec_eq_spec pl files hnd, completedBefore_eq_spec]
  rw [hpt]
  have hT0 : (0 : ℚ) ≤ (specTotalDuration pl files : ℚ) := Nat.cast_nonneg _
  have hC0 : (0 : ℚ) ≤ (specCompletedBefore pl files idx : ℚ) := Nat.cast_nonneg _
  have hplayed : (0 : ℚ) ≤ (specCompletedBefore pl files idx : ℚ) + t :=
    add_nonneg hC0 ht
  have hpct0 : (0 : ℤ) ≤ (if (0 : ℚ) < (specTotalDuration pl files : ℚ) then
      min 100 (jsRound (((specCompletedBefore pl files idx : ℚ) + t) /
        (specTotalDuration pl files : ℚ) * 100))
    else 0) := by
    split
    · refine le_min (by norm_num) (jsRound_nonneg _ ?_)
      have hdiv : (0 : ℚ) ≤ ((specCompletedBefore pl files idx : ℚ) + t) /
          (specTotalDuration pl files : ℚ) := div_nonneg hplayed hT0
      nlinarith
    · exact le_refl 0
  refine ⟨rfl, rfl, le_max_right _ _, hpct0, ?_, ?_, ?_⟩
  · split
    · exact min_le_left _ _
    · norm_num
  · intro hzero
    rw [hzero]
    norm_num
  · by_cases hpos : (0 : ℚ) < (specTotalDuration pl files : ℚ)
    · rw [if_pos hpos]
      have harg : ((specCompletedBefore pl files idx : ℚ) + t) /
            (specTotalDuration pl files : ℚ) * 100 =
          100 * ((specCompletedBefore pl files idx : ℚ) + t) /
            (specTotalDuration pl files : ℚ) := by
        field_simp
        ring
      rw [harg]
      rw [if_pos hpos] at hpct0
      rw [harg] at hpct0
      rw [max_eq_right hpct0]
    · rw [if_neg hpos]
      have hzero : (specTotalDuration pl files : ℚ) = 0 :=
        le_antisymm (not_lt.mp hpos) hT0
      rw [hzero, div_zero]
      have hr : jsRound 0 = 0 := by
        unfold jsRound
        rw [show (0 : ℚ) + 1 / 2 = 1 / 2 by norm_num]
        rw [Int.floor_eq_iff]
        norm_num
      rw [hr]
      norm_num

/-- Witness for C7 on a two-track playlist (one unknown duration) at
index 1 with a fractional element position. -/
theorem c7_witness :
    (c7Playlists.find? (fun p => p.id == "p1") = some c7Playlist ∧
     (0 : ℚ) ≤ 1 / 2 ∧ (c7Files.map (fun f => f.id)).Nodup) ∧
    ((progressTick c7Playlists c7Files "p1" 1 (1 / 2)
        { remaining := 0, percent := 0 }).remaining =
      max ((specTotalDuration c7Playlist c7Files : ℚ) -
        ((specCompletedBefore c7Playlist c7Files 1 : ℚ) + 1 / 2)) 0 ∧
    (progressTick c7Playlists c7Files "p1" 1 (1 / 2)
        { remaining := 0, percent := 0 }).percent =
      (if (0 : ℚ) < (specTotalDuration c7Playlist c7Files : ℚ) then
        min 100 (jsRound (((specCompletedBefore c7Playlist c7Files 1 : ℚ) + 1 / 2) /
          (specTotalDuration c7Playlist c7Files : ℚ) * 100))
      else 0) ∧
    0 ≤ (progressTick c7Playlists c7Files "p1" 1 (1 / 2)
        { remaining := 0, percent := 0 }).remaining ∧
    0 ≤ (progressTick c7Playlists c7Files "p1" 1 (1 / 2)
        { remaining := 0, percent := 0 }).percent ∧
    (progressTick c7Playlists c7Files "p1" 1 (1 / 2)
        { remaining := 0, percent := 0 }).percent ≤ 100 ∧
    ((specTotalDuration c7Playlist c7Files : ℚ) = 0 →
      (progressTick c7Playlists c7Files "p1" 1 (1 / 2)
        { remaining := 0, percent := 0 }).percent = 0) ∧
    (progressTick c7Playlists c7Files "p1" 1 (1 / 2)
        { remaining := 0, percent := 0 }).percent =
      max 0 (min 100 (jsRound (100 * ((specCompletedBefore c7Playlist c7Files 1 : ℚ) + 1 / 2) /
        (specTotalDuration c7Playlist c7Files : ℚ))))) :=
  ⟨⟨by decide, by norm_num, by decide⟩,
    c7_progress_tick c7Playlists c7Files "p1" 1 (1 / 2)
      { remaining := 0, percent := 0 } c7Playlist (by decide) (by norm_num) (by decide)⟩

/-- Claim C8 (amended): while playing a fixed track index, the published
`remaining` is non-increasing as the element position advances between
consecutive ticks; `stopPlayback` (and hence finishing the playlist,
which `advanceTrack` turns into `stopPlayback`) publishes remaining 0.
Across a track boundary `remaining` can increase when the elapsed time
on the finished track exceeded its recorded, rounded `durationSec`; see
the counterexample. -/
theorem c8_remaining_monotone (ps : List Playlist) (files : List MediaFile) (pid : String)
    (idx : Nat) (t t' : ℚ) (prev prev' : ProgressSnapshot) (pl : Playlist)
    (hfind : ps.find? (fun p => p.id == pid) = some pl)
    (htt : t ≤ t') :
    (progressTick ps files pid idx t' prev').remaining ≤
      (progressTick ps files pid idx t prev).remaining ∧
    (∀ s : PlaybackState, (stopPlayback s).progress.remaining = 0 ∧
      (stopPlayback s).progress.percent = 0) ∧
    (∀ s : PlaybackState, ∀ pid2 pl2, s.playbackPlaylistId = some pid2 →
      ps.find? (fun p => p.id == pid2) = some pl2 →
      ¬ (s.currentTrackIndex + 1 < pl2.fileIds.length) →
      (advanceTrack ps s none).progress.remaining = 0) := by
  refine ⟨?_, fun s => ⟨rfl, rfl⟩, ?_⟩
  · have h1 : progressTick ps files pid idx t' prev' =
        { remaining := max ((playlistDurationSec pl files : ℚ) -
            ((completedBefore pl files idx : ℚ) + t')) 0,
          percent := if (0 : ℚ) < (playlistDurationSec pl files : ℚ) then
            min 100 (jsRound (((completedBefore pl files idx : ℚ) + t') /
              (playlistDurationSec pl files : ℚ) * 100))
          else 0 } := by
      unfold progressTick
      rw [hfind]
    have h2 : progressTick ps files pid idx t prev =
        { remaining := max ((playlistDurationSec pl files : ℚ) -
            ((completedBefore pl files idx : ℚ) + t)) 0,
          percent := if (0 : ℚ) < (playlistDurationSec pl files : ℚ) then
            min 100 (jsRound (((completedBefore pl files idx : ℚ) + t) /
              (playlistDurationSec pl files : ℚ) * 100))
          else 0 } := by
      unfold progressTick
      rw [hfind]
    rw [h1, h2]
    exact max_le_max (by linarith) (le_refl 0)
  · intro s pid2 pl2 hsp hf2 hlast
    simp only [advanceTrack, hsp, hf2]
    rw [if_neg hlast]
    rfl

/-- Counterexample to claim C8 as stated: two consecutive ticks of one
run — the last tick on track 0 at element position 10.4 s (legal for a
track of true length 10.4 s, recorded as `durationSec = 10`), and the
first tick on track 1 at position 0.3 s after the `onEnded` advance —
publish a strictly increasing `remaining` (19.6 s, then 19.7 s), so
`remaining` is not non-increasing between consecutive ticks while
playing. -/
theorem c8_counterexample :
    jsRound (52 / 5) = 10 ∧
    (progressTick c8Playlists c8Files "p1" 0 (52 / 5)
        { remaining := 0, percent := 0 }).remaining <
      (progressTick c8Playlists c8Files "p1" 1 (3 / 10)
        { remaining := 0, percent := 0 }).remaining := by
  constructor
  · unfold jsRound
    rw [show (52 : ℚ) / 5 + 1 / 2 = 109 / 10 by norm_num]
    rw [Int.floor_eq_iff]
    norm_num
  · have hfind8 : c8Playlists.find? (fun p => p.id == "p1") = some c8Playlist := by decide
    have htot : playlistDurationSec c8Playlist c8Files = 30 := by decide
    have hc0 : completedBefore c8Playlist c8Files 0 = 0 := by decide
    have hc1 : completedBefore c8Playlist c8Files 1 = 10 := by decide
    have h1 : (progressTick c8Playlists c8Files "p1" 0 (52 / 5)
        { remaining := 0, percent := 0 }).remaining = 98 / 5 := by
      simp only [progressTick, hfind8, htot, hc0]
      push_cast
      rw [max_eq_left] <;> norm_num
    have h2 : (progressTick c8Playlists c8Files "p1" 1 (3 / 10)
        { remaining := 0, percent := 0 }).remaining = 197 / 10 := by
      simp only [progressTick, hfind8, htot, hc1]
      push_cast
      rw [max_eq_left] <;> norm_num
    rw [h1, h2]
    norm_num

/-- Witness for the amended C8 at a concrete playlist and two element
positions on the same track. -/
theorem c8_witness :
    (c8Playlists.find? (fun p => p.id == "p1") =
       some { id := "p1", name := "pl", fileIds := ["a", "b"] } ∧ (0 : ℚ) ≤ 1) ∧
    ((progressTick c8Playlists c8Files "p1" 0 1
        { remaining := 0, percent := 0 }).remaining ≤
      (progressTick c8Playlists c8Files "p1" 0 0
        { remaining := 0, percent := 0 }).remaining ∧
    (∀ s : PlaybackState, (stopPlayback s).progress.remaining = 0 ∧
      (stopPlayback s).progress.percent = 0) ∧
    (∀ s : PlaybackState, ∀ pid2 pl2, s.playbackPlaylistId = some pid2 →
      c8Playlists.find? (fun p => p.id == pid2) = some pl2 →
      ¬ (s.currentTrackIndex + 1 < pl2.fileIds.length) →
      (advanceTrack c8Playlists s none).progress.remaining = 0)) :=
  ⟨⟨by decide, by norm_num⟩,
    c8_remaining_monotone c8Playlists c8Files "p1" 0 0 1
      { remaining := 0, percent := 0 } { remaining := 0, percent := 0 }
      { id := "p1", name := "pl", fileIds := ["a", "b"] } (by decide) (by norm_num)⟩

/-- Claim C10: in every reachable state the published snapshot satisfies
`remaining ≥ 0` and `0 ≤ percent ≤ 100`: it starts at zeros, every tick
writes clamped values, and `stopPlayback` resets it to zeros. -/
theorem c10_progress_bounds (snap : ProgressSnapshot) (h : SnapshotReachable snap) :
    0 ≤ snap.remaining ∧ 0 ≤ snap.percent ∧ snap.percent ≤ 100 := by
  induction h with
  | init => exact ⟨le_refl 0, le_refl 0, by norm_num⟩
  | tick ps files pid idx t prev ht hprev ih =>
    rcases hf : ps.find? (fun p => p.id == pid) with _ | pl
    · have hkeep : progressTick ps files pid idx t prev = prev := by
        unfold progressTick
        rw [hf]
      rw [hkeep]
      exact ih
    · have hpt : progressTick ps files pid idx t prev =
          { remaining := max ((playlistDurationSec pl files : ℚ) -
              ((completedBefore pl files idx : ℚ) + t)) 0,
            percent := if (0 : ℚ) < (playlistDurationSec pl files : ℚ) then
              min 100 (jsRound (((completedBefore pl files idx : ℚ) + t) /
                (playlistDurationSec pl files : ℚ) * 100))
            else 0 } := by
        unfold progressTick
        rw [hf]
      rw [hpt]
      refine ⟨le_max_right _ _, ?_, ?_⟩
      · show (0 : ℤ) ≤ _
        split
        · refine le_min (by norm_num) (jsRound_nonneg _ ?_)
          have hplayed : (0 : ℚ) ≤ (completedBefore pl files idx : ℚ) + t :=
            add_nonneg (Nat.cast_nonneg _) ht
          have hdiv : (0 : ℚ) ≤ ((completedBefore pl files idx : ℚ) + t) /
              (playlistDurationSec pl files : ℚ) :=
            div_nonneg hplayed (Nat.cast_nonneg _)
          nlinarith
        · exact le_refl 0
      · show _ ≤ (100 : ℤ)
        split
        · exact min_le_left _ _
        · norm_num
  | stop s hprev ih =>
    refine ⟨le_refl 0, le_refl 0, ?_⟩
    show (0 : ℤ) ≤ 100
    norm_num

/-- Witness for C10 at the initial snapshot. -/
theorem c10_witness :
    0 ≤ ({ remaining := 0, percent := 0 } : ProgressSnapshot).remaining ∧
    0 ≤ ({ remaining := 0, percent := 0 } : ProgressSnapshot).percent ∧
    ({ remaining := 0, percent := 0 } : ProgressSnapshot).percent ≤ 100 :=
  c10_progress_bounds _ SnapshotReachable.init

/-- Behaviour of the skip walk from any start index, when every track id
has a media entry: it stops at the first index whose blob resolves
(playing), or finishes having skipped every remaining index — never
stalling and never revisiting an index. -/
theorem skipWalk_spec (files : List MediaFile) (store : String → Bool) (ids : List String)
    (hall : ∀ fid ∈ ids, (lookupTrack files fid).isSome = true) :
    ∀ fuel i, i < ids.length → ids.length ≤ i + fuel →
      (∃ j, i ≤ j ∧ j < ids.length ∧
        skipWalk files store ids i fuel = WalkResult.playing j ∧
        (∀ fid, ids.get? j = some fid → store fid = true) ∧
        (∀ k, i ≤ k → k < j → ∀ fid, ids.get? k = some fid → store fid = false)) ∨
      (skipWalk files store ids i fuel = WalkResult.finished ∧
        ∀ k, i ≤ k → k < ids.length → ∀ fid, ids.get? k = some fid → store fid = false) := by
  intro fuel
  induction fuel with
  | zero =>
    intro i h1 h2
    omega
  | succ fuel ih =>
    intro i h1 h2
    have hget : ids.get? i = some (ids.get ⟨i, h1⟩) := List.get?_eq_get h1
    have hmem : ids.get ⟨i, h1⟩ ∈ ids := List.get_mem ids i h1
    have hsome := hall _ hmem
    rcases hlt : lookupTrack files (ids.get ⟨i, h1⟩) with _ | track
    · rw [hlt] at hsome
      simp at hsome
    · have htid : track.id = ids.get ⟨i, h1⟩ := by
        have hp := List.find?_some hlt
        simpa using hp
    -- continue below
      by_cases hs : store (ids.get ⟨i, h1⟩) = true
      · left
        refine ⟨i, le_refl i, h1, ?_, ?_, ?_⟩
        · simp only [skipWalk, hget, hlt]
          rw [htid]
          rw [if_pos hs]
        · intro fid hfid2
          rw [hget] at hfid2
          injection hfid2 with hf
          rw [← hf]
          exact hs
        · intro k hk1 hk2
          omega
      · have hs' : store (ids.get ⟨i, h1⟩) = false := by
          simpa using hs
        have hstep : skipWalk files store ids i (fuel + 1) =
            (if i + 1 < ids.length then skipWalk files store ids (i + 1) fuel
             else WalkResult.finished) := by
          simp only [skipWalk, hget, hlt]
          rw [htid]
          rw [if_neg hs]
        by_cases hnext : i + 1 < ids.length
        · rw [if_pos hnext] at hstep
          rcases ih (i + 1) hnext (by omega) with
            ⟨j, hj1, hj2, hj3, hj4, hj5⟩ | ⟨hfin, hall2⟩
          · left
            refine ⟨j, by omega, hj2, by rw [hstep]; exact hj3, hj4, ?_⟩
            intro k hk1 hk2 fid hfid2
            by_cases hki : k = i
            · subst hki
              rw [hget] at hfid2
              injection hfid2 with hf
              rw [← hf]
              exact hs'
            · exact hj5 k (by omega) hk2 fid hfid2
          · right
            refine ⟨by rw [hstep]; exact hfin, ?_⟩
            intro k hk1 hk2 fid hfid2
            by_cases hki : k = i
            · subst hki
              rw [hget] at hfid2
              injection hfid2 with hf
              rw [← hf]
              exact hs'
            · exact hall2 k (by omega) hk2 fid hfid2
        · rw [if_neg hnext] at hstep
          right
          refine ⟨hstep, ?_⟩
          intro k hk1 hk2 fid hfid2
          have hki : k = i := by omega
          subst hki
          rw [hget] at hfid2
          injection hfid2 with hf
          rw [← hf]
          exact hs'

/-- Claim C6 (amended): provided every track id of the playlist has a
media entry, the walk started at index 0 with `fuel = length`
terminates: it never stalls, a playlist whose every blob is missing
walks to `Finished` one skip at a time (indices only increase, each
index visited at most once, bounded by the length), and when at least
one track's blob resolves, the walk reaches `playing` at the first such
index.  (Without the media-entry proviso the cursor can stall on a
dangling id; see the counterexample.) -/
theorem c6_skip_walk (files : List MediaFile) (store : String → Bool) (ids : List String)
    (hne : ids ≠ [])
    (hall : ∀ fid ∈ ids, (lookupTrack files fid).isSome = true) :
    ((∀ fid ∈ ids, store fid = false) →
      skipWalk files store ids 0 ids.length = WalkResult.finished) ∧
    (∀ j, skipWalk files store ids 0 ids.length = WalkResult.playing j → j < ids.length) ∧
    ((∃ fid ∈ ids, store fid = true) →
      ∃ j, j < ids.length ∧ skipWalk files store ids 0 ids.length = WalkResult.playing j ∧
        (∀ fid, ids.get? j = some fid → store fid = true) ∧
        (∀ k, k < j → ∀ fid, ids.get? k = some fid → store fid = false)) ∧
    (∀ n, skipWalk files store ids 0 ids.length ≠ WalkResult.stalled n) := by
  have hpos : 0 < ids.length := List.length_pos.mpr hne
  have hspec := skipWalk_spec files store ids hall ids.length 0 hpos (by omega)
  rcases hspec with ⟨j, hj1, hj2, hj3, hj4, hj5⟩ | ⟨hfin, hall2⟩
  · refine ⟨?_, ?_, ?_, ?_⟩
    · intro hallfalse
      exfalso
      have hgj : ids.get? j = some (ids.get ⟨j, hj2⟩) := List.get?_eq_get hj2
      have := hj4 _ hgj
      have hmemj : ids.get ⟨j, hj2⟩ ∈ ids := List.get_mem ids j hj2
      rw [hallfalse _ hmemj] at this
      exact Bool.noConfusion this
    · intro j2 hj2eq
      rw [hj3] at hj2eq
      injection hj2eq with hf
      omega
    · intro _
      exact ⟨j, hj2, hj3, hj4, fun k hk => hj5 k (by omega) hk⟩
    · intro n
      rw [hj3]
      simp
  · refine ⟨?_, ?_, ?_, ?_⟩
    · intro _
      exact hfin
    · intro j2 hj2eq
      rw [hfin] at hj2eq
      cases hj2eq
    · rintro ⟨fid, hmem, hs⟩
      exfalso
      obtain ⟨n, hn⟩ := List.mem_iff_get?.mp hmem
      have hnlen : n < ids.length := by
        by_contra hnot
        rw [List.get?_eq_none.mpr (by omega)] at hn
        cases hn
      have := hall2 n (by omega) hnlen fid hn
      rw [hs] at this
      exact Bool.noConfusion this
    · intro n
      rw [hfin]
      simp

/-- Counterexample to claim C6 as stated: a one-track playlist whose
track id has no media entry.  `currentTrack` stays null, the setup
effect (lines 1293-1297) returns without calling `advanceTrack`, so the
walk stalls at index 0 for any amount of fuel: playback neither reaches
a playing track nor finishes, although the sole track is certainly
unresolvable. -/
theorem c6_counterexample :
    (∀ fuel, skipWalk [] (fun _ => true) ["ghost"] 0 (fuel + 1) = WalkResult.stalled 0) ∧
    skipWalk [] (fun _ => true) ["ghost"] 0 1 ≠ WalkResult.finished ∧
    (∀ j, skipWalk [] (fun _ => true) ["ghost"] 0 1 ≠ WalkResult.playing j) := by
  have hs : skipWalk [] (fun _ => true) ["ghost"] 0 1 = WalkResult.stalled 0 := rfl
  refine ⟨fun fuel => rfl, ?_, ?_⟩
  · rw [hs]
    simp
  · intro j
    rw [hs]
    simp

/-- Witness for the amended C6: a two-track playlist whose first blob is
missing and second resolves. -/
theorem c6_witness :
    ((["a", "b"] : List String) ≠ [] ∧
     (∀ fid ∈ (["a", "b"] : List String), (lookupTrack c6Files fid).isSome = true)) ∧
    (((∀ fid ∈ (["a", "b"] : List String), c6Store fid = false) →
      skipWalk c6Files c6Store ["a", "b"] 0 (["a", "b"] : List String).length =
        WalkResult.finished) ∧
    (∀ j, skipWalk c6Files c6Store ["a", "b"] 0 (["a", "b"] : List String).length =
        WalkResult.playing j → j < (["a", "b"] : List String).length) ∧
    ((∃ fid ∈ (["a", "b"] : List String), c6Store fid = true) →
      ∃ j, j < (["a", "b"] : List String).length ∧
        skipWalk c6Files c6Store ["a", "b"] 0 (["a", "b"] : List String).length =
          WalkResult.playing j ∧
        (∀ fid, (["a", "b"] : List String).get? j = some fid → c6Store fid = true) ∧
        (∀ k, k < j → ∀ fid, (["a", "b"] : List String).get? k = some fid →
          c6Store fid = false)) ∧
    (∀ n, skipWalk c6Files c6Store ["a", "b"] 0 (["a", "b"] : List String).length ≠
      WalkResult.stalled n)) :=
  ⟨⟨by decide, by decide⟩,
    c6_skip_walk c6Files c6Store ["a", "b"] (by decide) (by decide)⟩

end RiseBeat

